import Mathlib

/-!
Verification development for the market discovery and price streaming
subsystem (src/src/services/MarketDiscoveryService.ts, which contains both
the MarketDiscoveryService class and the PriceStreamLogger module).

Shallow embedding conventions:
* JavaScript numbers are modelled as rationals; timestamps in
  milliseconds are modelled as integers.
* String-typed numeric fields of inbound feed events are modelled as the
  result of safeParseNumber, i.e. as Option values.
* Map objects keyed by strings are modelled as functions into Option.
-/

/-- JavaScript Math.round: round half toward positive infinity. -/
def jsRound (q : ℚ) : ℤ := ⌊q + 1 / 2⌋

/-- Rounding to six decimal places as in maybeWriteRow:
Math.round(price * 1e6) / 1e6. -/
def round6 (q : ℚ) : ℚ := (jsRound (q * 1000000) : ℚ) / 1000000

/-- Numeric value printed by toFixed(4) (its decimal string is modelled by
this integer numerator over ten thousand). -/
def toFixed4 (q : ℚ) : ℤ := jsRound (q * 10000)

/-- JavaScript "x || 0" idiom on an optional number: null and 0 collapse
to 0; used here where the source reads a number that is present. -/
def jsOrZero (o : Option ℚ) : ℚ :=
  match o with
  | some q => q
  | none => 0

/-- JavaScript "x || null" idiom on an optional number: a value of 0 is
falsy and collapses to null. -/
def jsOrNull (o : Option ℚ) : Option ℚ :=
  match o with
  | some q => if q = 0 then none else some q
  | none => none

/-- JavaScript "s || d" idiom on strings: the empty string is falsy. -/
def jsOrStr (s d : String) : String := if s = "" then d else s

/-- JavaScript Math.abs, written so that it evaluates by kernel
reduction. -/
def jsAbs (q : ℚ) : ℚ := if q < 0 then -q else q

theorem jsAbs_eq_abs (q : ℚ) : jsAbs q = |q| := by
  unfold jsAbs
  split
  · exact (abs_of_neg (by assumption)).symm
  · exact (abs_of_nonneg (not_lt.mp (by assumption))).symm

/-!
## CSV Writer (journal) — class CSVWriter, lines 683-828

The CSVRow model keeps the fields that addRow and the claims inspect; the
purely presentational date breakdown columns are not modelled.
-/

structure CSVRow where
  timestamp : ℤ
  priceUp : ℚ
  priceDown : ℚ
  upBid : Option ℚ
  upAsk : Option ℚ
  downBid : Option ℚ
  downAsk : Option ℚ
  entryType : String
  watchEntry : String
  paperEntry : String
  notes : String
deriving DecidableEq, Repr

/-- Dedup keys: the source builds pipe-separated strings
"ts|pu.toFixed(4)|pd.toFixed(4)" for price rows and "ts|notes" for trade
rows; they are modelled structurally. -/
inductive RowKey where
  | priceKey (ts : ℤ) (pu4 pd4 : ℤ)
  | tradeKey (ts : ℤ) (notes : String)
deriving DecidableEq, Repr

structure CSVWriterState where
  buffer : List CSVRow
  recentRowKeys : List RowKey
  lastWrittenTimestamp : ℤ
deriving DecidableEq, Repr

/-- Fresh writer state right after construction. -/
def CSVWriterState.init : CSVWriterState :=
  { buffer := [], recentRowKeys := [], lastWrittenTimestamp := 0 }

/-- Line 744: row.watchEntry === YES or row.paperEntry === YES. -/
def isTradeEntry (row : CSVRow) : Bool :=
  row.watchEntry == "YES" || row.paperEntry == "YES"

/-- Lines 743-749: the deduplication key of a row. -/
def dedupeKey (row : CSVRow) : RowKey :=
  if isTradeEntry row then
    RowKey.tradeKey row.timestamp row.notes
  else
    RowKey.priceKey row.timestamp (toFixed4 row.priceUp) (toFixed4 row.priceDown)

/-- Lines 762-763: the price consistency condition. A row is rejected by
the sum filter when both prices are strictly positive and the sum deviates
from 1.0 by more than 0.05. -/
def priceSumRejects (row : CSVRow) : Bool :=
  decide (0 < row.priceUp) && decide (0 < row.priceDown) &&
    decide ((1 : ℚ) / 20 < jsAbs (row.priceUp + row.priceDown - 1))

/-- Lines 742-781: CSVWriter.addRow. Returns whether the row was accepted
together with the updated writer state. -/
def addRow (w : CSVWriterState) (row : CSVRow) : Bool × CSVWriterState :=
  let key := dedupeKey row
  if key ∈ w.recentRowKeys then (false, w)
  else if isTradeEntry row = false ∧ row.timestamp < w.lastWrittenTimestamp - 1000 then
    (false, w)
  else if priceSumRejects row then (false, w)
  else
    let keys0 := w.recentRowKeys ++ [key]
    let keys := if 100 < keys0.length then keys0.drop (keys0.length / 2) else keys0
    (true,
      { buffer := w.buffer ++ [row]
        recentRowKeys := keys
        lastWrittenTimestamp :=
          if isTradeEntry row then w.lastWrittenTimestamp else row.timestamp })

/-- C2 counterexample row: priceDown is 0, the sum deviates from 1.0 by
0.3, yet addRow accepts the row. -/
def rowZeroDown : CSVRow :=
  { timestamp := 5000, priceUp := 7 / 10, priceDown := 0,
    upBid := none, upAsk := none, downBid := none, downAsk := none,
    entryType := "", watchEntry := "", paperEntry := "", notes := "" }

/-- C2: the claim says any row whose price sum deviates from 1.0 by more
than 0.05 is rejected; on a fresh writer the concrete row with priceUp 0.7
and priceDown 0 has deviation 0.3 and is accepted. -/
theorem addRow_sum_filter_counterexample :
    (1 : ℚ) / 20 < |rowZeroDown.priceUp + rowZeroDown.priceDown - 1| ∧
      (addRow CSVWriterState.init rowZeroDown).1 = true := by
  constructor
  · rw [← jsAbs_eq_abs]
    norm_num [rowZeroDown, jsAbs]
  · norm_num [addRow, dedupeKey, isTradeEntry, priceSumRejects, jsAbs,
      rowZeroDown, CSVWriterState.init]

/-- C2 (amended): a candidate row with both prices strictly positive whose
price sum deviates from 1.0 by more than 0.05 is rejected by addRow, and a
row whose deviation is at most 0.05 is never rejected by the sum filter. -/
theorem addRow_sum_filter (w : CSVWriterState) (row : CSVRow) :
    (0 < row.priceUp → 0 < row.priceDown →
      (1 : ℚ) / 20 < |row.priceUp + row.priceDown - 1| →
      (addRow w row).1 = false) ∧
    (|row.priceUp + row.priceDown - 1| ≤ (1 : ℚ) / 20 →
      priceSumRejects row = false) := by
  constructor
  · intro h1 h2 h3
    have hrej : priceSumRejects row = true := by
      simp only [priceSumRejects, jsAbs_eq_abs, Bool.and_eq_true, decide_eq_true_eq]
      exact ⟨⟨h1, h2⟩, h3⟩
    simp only [addRow]
    split_ifs <;> rfl
  · intro h
    have := not_lt.mpr h
    simp only [priceSumRejects, jsAbs_eq_abs, Bool.and_eq_false_iff, decide_eq_false_iff_not]
    right
    exact this

def rowDev003 : CSVRow :=
  { timestamp := 5000, priceUp := 31 / 50, priceDown := 41 / 100,
    upBid := none, upAsk := none, downBid := none, downAsk := none,
    entryType := "", watchEntry := "", paperEntry := "", notes := "" }

def rowDev020 : CSVRow :=
  { timestamp := 5000, priceUp := 7 / 10, priceDown := 1 / 10,
    upBid := none, upAsk := none, downBid := none, downAsk := none,
    entryType := "", watchEntry := "", paperEntry := "", notes := "" }

/-- C2 witness: the concrete rows from the spec examples; 0.70/0.10 is
rejected, 0.62/0.41 passes the sum filter. -/
theorem addRow_sum_filter_witness :
    (addRow CSVWriterState.init rowDev020).1 = false ∧
      priceSumRejects rowDev003 = false :=
  ⟨(addRow_sum_filter CSVWriterState.init rowDev020).1 (by norm_num [rowDev020])
      (by norm_num [rowDev020]) (by rw [← jsAbs_eq_abs]; norm_num [rowDev020, jsAbs]),
    (addRow_sum_filter CSVWriterState.init rowDev003).2
      (by rw [← jsAbs_eq_abs]; norm_num [rowDev003, jsAbs])⟩

/-- C6: a price row whose timestamp is more than 1000 ms older than the
last written price timestamp is rejected with the writer unchanged, while
a watch or paper trade marker row is never affected by the ordering guard
(its acceptance does not depend on lastWrittenTimestamp) and it never
advances lastWrittenTimestamp. -/
theorem addRow_ordering_guard (w : CSVWriterState) (row : CSVRow) :
    (isTradeEntry row = false → row.timestamp < w.lastWrittenTimestamp - 1000 →
      addRow w row = (false, w)) ∧
    (isTradeEntry row = true →
      (∀ t : ℤ, (addRow { w with lastWrittenTimestamp := t } row).1 = (addRow w row).1) ∧
      (addRow w row).2.lastWrittenTimestamp = w.lastWrittenTimestamp) := by
  constructor
  · intro htrade hts
    by_cases h1 : dedupeKey row ∈ w.recentRowKeys
    · simp [addRow, h1]
    · simp [addRow, h1, htrade, hts]
  · intro htrade
    constructor
    · intro t
      simp only [addRow, htrade]
      simp only [Bool.true_eq_false, false_and, if_false]
      split_ifs <;> rfl
    · simp only [addRow, htrade]
      split_ifs <;> simp [htrade]

/-- C6 concrete inputs: an out-of-order price row and a watch marker. -/
def rowLate : CSVRow :=
  { timestamp := -1500, priceUp := 1 / 2, priceDown := 1 / 2,
    upBid := none, upAsk := none, downBid := none, downAsk := none,
    entryType := "", watchEntry := "", paperEntry := "", notes := "" }

def rowWatch : CSVRow :=
  { timestamp := -1500, priceUp := 1 / 2, priceDown := 1 / 2,
    upBid := none, upAsk := none, downBid := none, downAsk := none,
    entryType := "WATCH", watchEntry := "YES", paperEntry := "", notes := "WATCH: x" }

/-- C6 witness: the late price row is rejected on a fresh writer, and the
watch marker leaves lastWrittenTimestamp alone. -/
theorem addRow_ordering_guard_witness :
    addRow CSVWriterState.init rowLate = (false, CSVWriterState.init) ∧
      (addRow CSVWriterState.init rowWatch).2.lastWrittenTimestamp =
        CSVWriterState.init.lastWrittenTimestamp :=
  ⟨(addRow_ordering_guard CSVWriterState.init rowLate).1 (by decide)
      (by norm_num [rowLate, CSVWriterState.init]),
    ((addRow_ordering_guard CSVWriterState.init rowWatch).2 (by decide)).2⟩

/-- C10: the price-sum sanity check never fires for a row in which either
price equals 0, whatever the deviation; such a row passing deduplication
and the ordering guard is accepted. -/
theorem addRow_zero_price_bypass (w : CSVWriterState) (row : CSVRow) :
    (row.priceUp = 0 ∨ row.priceDown = 0 → priceSumRejects row = false) ∧
    (row.priceUp = 0 ∨ row.priceDown = 0 →
      dedupeKey row ∉ w.recentRowKeys →
      ¬(isTradeEntry row = false ∧ row.timestamp < w.lastWrittenTimestamp - 1000) →
      (addRow w row).1 = true) := by
  have hrej : row.priceUp = 0 ∨ row.priceDown = 0 → priceSumRejects row = false := by
    rintro (h | h) <;> simp [priceSumRejects, h]
  refine ⟨hrej, ?_⟩
  intro h hdk hord
  have hpr : priceSumRejects row = false := hrej h
  simp [addRow, hdk, hord, hpr]

/-- C10 witness: the row with priceDown 0 and deviation 0.3 passes the
sum filter and is accepted on a fresh writer. -/
theorem addRow_zero_price_bypass_witness :
    priceSumRejects rowZeroDown = false ∧
      (addRow CSVWriterState.init rowZeroDown).1 = true :=
  ⟨(addRow_zero_price_bypass CSVWriterState.init rowZeroDown).1 (Or.inr rfl),
    (addRow_zero_price_bypass CSVWriterState.init rowZeroDown).2 (Or.inr rfl)
      (by simp [CSVWriterState.init])
      (by
        intro hcon
        exact absurd hcon.2 (by norm_num [rowZeroDown, CSVWriterState.init]))⟩

/-!
## Asset states, market info and the stream state

AssetState is the per-token cache (lines 598-604). MarketInfo and
MarketToken mirror the MarketDiscoveryService types (lines 28-44); the
ISO date strings start_time_iso and end_date_iso are modelled by their
epoch-millisecond values as produced by Date.getTime().
-/

structure AssetState where
  lastPrice : Option ℚ
  bestBid : Option ℚ
  bestAsk : Option ℚ
  lastTradePrice : Option ℚ
  marketConditionId : Option String
deriving DecidableEq, Repr

structure MarketToken where
  token_id : String
  outcome : String
deriving DecidableEq, Repr

structure MarketInfo where
  condition_id : String
  slug : String
  question : String
  endTimeMs : ℤ
  startTimeMs : ℤ
  tokens : List MarketToken
  closed : Bool
  active : Bool
  market_type : String
deriving DecidableEq, Repr

/-- Discovery state: the currentMarkets and nextMarkets maps, modelled as
insertion-ordered association lists keyed by market type. -/
structure MarketDiscoveryState where
  currentMarkets : List (String × MarketInfo)
  nextMarkets : List (String × MarketInfo)
deriving DecidableEq, Repr

/-- Lines 400-418: MarketDiscoveryService.getMarketByAssetId scans current
markets first, then next markets, for one whose token list contains the
asset id. -/
def getMarketByAssetId (d : MarketDiscoveryState) (assetId : String) : Option MarketInfo :=
  match (d.currentMarkets.map Prod.snd).find?
      (fun m => m.tokens.any (fun t => t.token_id == assetId)) with
  | some m => some m
  | none =>
    (d.nextMarkets.map Prod.snd).find?
      (fun m => m.tokens.any (fun t => t.token_id == assetId))

/-- Pending per-side observation (lines 870-876). -/
structure PendingPrice where
  price : ℚ
  bid : Option ℚ
  ask : Option ℚ
  assetId : String
  ts_ms : ℤ
deriving DecidableEq, Repr

/-- Pending row buffer per market type (lines 878-883). -/
structure PendingRow where
  marketType : String
  up : Option PendingPrice
  down : Option PendingPrice
  lastUpdate : ℤ
deriving DecidableEq, Repr

/-- Mutable state of the PriceStreamLogger that the claims inspect: the
assetStates, pendingRows and writers maps plus the discovery state.
Timers, the socket handle and the price history ring are not modelled. -/
structure PriceStreamState where
  assetStates : String → Option AssetState
  pendingRows : String → Option PendingRow
  writers : String → Option CSVWriterState
  discovery : MarketDiscoveryState

def emptyStream : PriceStreamState :=
  { assetStates := fun _ => none
    pendingRows := fun _ => none
    writers := fun _ => none
    discovery := { currentMarkets := [], nextMarkets := [] } }

/-- Lines 1455-1456: the fallback chain state.lastPrice ?? state.lastTradePrice. -/
def lastPriceFallback (state : AssetState) : Option ℚ :=
  match state.lastPrice with
  | some p => some p
  | none => state.lastTradePrice

/-- Lines 1444-1457: PriceStreamLogger.getMidPrice. -/
def getMidPrice (s : PriceStreamState) (tokenId : String) : Option ℚ :=
  match s.assetStates tokenId with
  | none => none
  | some state =>
    match state.bestBid, state.bestAsk with
    | some b, some a =>
      if 0 < b ∧ 0 < a then some ((b + a) / 2) else lastPriceFallback state
    | some _, none => lastPriceFallback state
    | none, _ => lastPriceFallback state

/-- C7 counterexample state: no best bid, lastPrice 0.5, lastTradePrice 0.7. -/
def stC7 : AssetState :=
  { lastPrice := some (1 / 2), bestBid := none, bestAsk := some 1,
    lastTradePrice := some (7 / 10), marketConditionId := none }

def sC7 : PriceStreamState := { emptyStream with assetStates := fun _ => some stC7 }

/-- C7: the claim says that without a positive bid/ask pair the consumer
query returns the last trade price; on this state the last trade price is
0.7 but getMidPrice returns the last emitted price 0.5. -/
theorem getMidPrice_counterexample :
    stC7.bestBid = none ∧ stC7.lastTradePrice = some (7 / 10) ∧
      getMidPrice sC7 "T" = some (1 / 2) ∧
      getMidPrice sC7 "T" ≠ some (7 / 10) := by
  refine ⟨rfl, rfl, rfl, ?_⟩
  intro hcon
  rw [show getMidPrice sC7 "T" = some (1 / 2) from rfl] at hcon
  exact absurd (Option.some.inj hcon) (by norm_num)

/-- C7 (amended): getMidPrice returns the bid/ask midpoint when both are
present and strictly positive; otherwise it falls back to the last
emitted price when present, then to the last trade price; for an unknown
token it returns null. -/
theorem getMidPrice_cases (s : PriceStreamState) (tok : String) :
    (s.assetStates tok = none → getMidPrice s tok = none) ∧
    (∀ st, s.assetStates tok = some st →
      (∀ b a, st.bestBid = some b → st.bestAsk = some a → 0 < b → 0 < a →
        getMidPrice s tok = some ((b + a) / 2)) ∧
      ((∀ b a, st.bestBid = some b → st.bestAsk = some a → ¬(0 < b ∧ 0 < a)) →
        getMidPrice s tok = lastPriceFallback st) ∧
      (∀ p, st.lastPrice = some p → lastPriceFallback st = some p) ∧
      (st.lastPrice = none → lastPriceFallback st = st.lastTradePrice)) := by
  constructor
  · intro h
    simp [getMidPrice, h]
  · intro st hst
    refine ⟨?_, ?_, ?_, ?_⟩
    · intro b a hb ha hb0 ha0
      simp [getMidPrice, hst, hb, ha, hb0, ha0]
    · intro hnot
      cases hb : st.bestBid with
      | none => simp [getMidPrice, hst, hb]
      | some b =>
        cases ha : st.bestAsk with
        | none => simp [getMidPrice, hst, hb, ha]
        | some a => simp [getMidPrice, hst, hb, ha, hnot b a hb ha]
    · intro p hp
      simp [lastPriceFallback, hp]
    · intro hp
      simp [lastPriceFallback, hp]

def stC7pos : AssetState :=
  { lastPrice := none, bestBid := some 1, bestAsk := some 2,
    lastTradePrice := none, marketConditionId := none }

def sC7pos : PriceStreamState := { emptyStream with assetStates := fun _ => some stC7pos }

/-- C7 witness: with bestBid 1 and bestAsk 2 the query returns 1.5. -/
theorem getMidPrice_cases_witness :
    getMidPrice sC7pos "T" = some (((1 : ℚ) + 2) / 2) :=
  (((getMidPrice_cases sC7pos "T").2 stC7pos rfl).1) 1 2 rfl rfl
    (by norm_num) (by norm_num)

/-!
## Reconciling tracked asset states — initializeAssetStates, lines 1026-1054
-/

/-- Fresh asset state inserted for a newly tracked id (lines 1043-1049). -/
def freshAssetState : AssetState :=
  { lastPrice := none, bestBid := none, bestAsk := none,
    lastTradePrice := none, marketConditionId := none }

/-- Lines 1026-1054: delete states for ids outside the new tracked set,
then insert a fresh state for every tracked id that has none. -/
def initializeAssetStates (states : String → Option AssetState)
    (assetIds : List String) : String → Option AssetState :=
  fun id =>
    let afterRemoval := if id ∈ assetIds then states id else none
    match afterRemoval with
    | some st => some st
    | none => if id ∈ assetIds then some freshAssetState else none

/-- C8: reconciliation to a tracked set preserves every existing state
whose id stays tracked (all fields unchanged), removes every state whose
id is gone, and creates a fresh all-null state for every newly tracked id. -/
theorem initializeAssetStates_spec (states : String → Option AssetState)
    (assetIds : List String) :
    (∀ id st, states id = some st → id ∈ assetIds →
      initializeAssetStates states assetIds id = some st) ∧
    (∀ id, id ∉ assetIds → initializeAssetStates states assetIds id = none) ∧
    (∀ id, id ∈ assetIds → states id = none →
      initializeAssetStates states assetIds id = some freshAssetState) ∧
    (freshAssetState.lastPrice = none ∧ freshAssetState.bestBid = none ∧
      freshAssetState.bestAsk = none ∧ freshAssetState.lastTradePrice = none) := by
  refine ⟨?_, ?_, ?_, ⟨rfl, rfl, rfl, rfl⟩⟩
  · intro id st hst hmem
    simp [initializeAssetStates, hmem, hst]
  · intro id hmem
    simp [initializeAssetStates, hmem]
  · intro id hmem hst
    simp [initializeAssetStates, hmem, hst]

def stOldC8 : AssetState :=
  { lastPrice := some (3 / 4), bestBid := some (2 / 3), bestAsk := some (4 / 5),
    lastTradePrice := some (3 / 4), marketConditionId := some "c1" }

def statesC8 : String → Option AssetState := fun id => if id = "keep" then some stOldC8 else none

/-- C8 witness: reconciling to the set containing keep and fresh keeps the
old state for keep, drops gone, and creates a fresh state for fresh. -/
theorem initializeAssetStates_spec_witness :
    initializeAssetStates statesC8 ["keep", "fresh"] "keep" = some stOldC8 ∧
      initializeAssetStates statesC8 ["keep", "fresh"] "gone" = none ∧
      initializeAssetStates statesC8 ["keep", "fresh"] "fresh" = some freshAssetState :=
  ⟨(initializeAssetStates_spec statesC8 ["keep", "fresh"]).1 "keep" stOldC8
      (by simp [statesC8]) (by simp),
    (initializeAssetStates_spec statesC8 ["keep", "fresh"]).2.1 "gone" (by simp),
    (initializeAssetStates_spec statesC8 ["keep", "fresh"]).2.2.1 "fresh"
      (by simp) (by simp [statesC8])⟩

/-!
## Row pairing — maybeWriteRow, lines 1260-1326
-/

/-- JavaScript Math.abs on integers, evaluation friendly. -/
def intAbs (n : ℤ) : ℤ := if n < 0 then -n else n

theorem intAbs_eq_abs (n : ℤ) : intAbs n = |n| := by
  unfold intAbs
  split
  · exact (abs_of_neg (by assumption)).symm
  · exact (abs_of_nonneg (not_lt.mp (by assumption))).symm

/-- Lines 1297-1300: drop a buffered side that is more than 5000 ms older
than the incoming update. -/
def clearStale (p : PendingRow) (tsMs : ℤ) : PendingRow :=
  { p with
    up := match p.up with
      | some u => if 5000 < tsMs - u.ts_ms then none else some u
      | none => none
    down := match p.down with
      | some d => if 5000 < tsMs - d.ts_ms then none else some d
      | none => none }

/-- Lines 1302-1308: store the incoming observation on its side and bump
lastUpdate. -/
def setSide (p : PendingRow) (pp : PendingPrice) (isUp : Bool) (tsMs : ℤ) : PendingRow :=
  if isUp then { p with up := some pp, lastUpdate := tsMs }
  else { p with down := some pp, lastUpdate := tsMs }

/-- Lines 1311-1325: when both sides are buffered, either emit the pair
(timestamps within 2000 ms) and clear both, or drop the older side. -/
def pairPending (p : PendingRow) : PendingRow × Option (PendingPrice × PendingPrice) :=
  match p.up, p.down with
  | some u, some d =>
    if intAbs (u.ts_ms - d.ts_ms) ≤ 2000 then
      ({ p with up := none, down := none }, some (u, d))
    else if u.ts_ms < d.ts_ms then
      ({ p with up := none }, none)
    else
      ({ p with down := none }, none)
  | _, _ => (p, none)

def updateAssetState (s : PriceStreamState) (assetId : String) (st : AssetState) :
    PriceStreamState :=
  { s with assetStates := fun k => if k = assetId then some st else s.assetStates k }

def updatePending (s : PriceStreamState) (marketType : String) (p : PendingRow) :
    PriceStreamState :=
  { s with pendingRows := fun k => if k = marketType then some p else s.pendingRows k }

def updateWriter (s : PriceStreamState) (marketType : String) (w : CSVWriterState) :
    PriceStreamState :=
  { s with writers := fun k => if k = marketType then some w else s.writers k }

/-- Lines 1328-1365: writeCombinedRow builds the combined row from the
pending buffer and hands it to the journal writer of the market type; the
returned option is the row when the journal accepted it. The price
history push is not modelled. -/
def writeCombinedRow (s : PriceStreamState) (marketType : String) (pending : PendingRow) :
    PriceStreamState × Option CSVRow :=
  match s.writers marketType with
  | none => (s, none)
  | some w =>
    let row : CSVRow :=
      { timestamp := pending.lastUpdate
        priceUp := jsOrZero (pending.up.map PendingPrice.price)
        priceDown := jsOrZero (pending.down.map PendingPrice.price)
        upBid := jsOrNull (pending.up.bind PendingPrice.bid)
        upAsk := jsOrNull (pending.up.bind PendingPrice.ask)
        downBid := jsOrNull (pending.down.bind PendingPrice.bid)
        downAsk := jsOrNull (pending.down.bind PendingPrice.ask)
        entryType := ""
        watchEntry := ""
        paperEntry := ""
        notes := "" }
    let res := addRow w row
    (updateWriter s marketType res.2, if res.1 then some row else none)

/-- Lines 1311-1325 as executed at the end of maybeWriteRow: pair, then
write the combined row (from the uncleared buffer, as in the source) and
store the cleared buffer. -/
def maybeWriteRowPending (s1 : PriceStreamState) (marketType : String)
    (pending2 : PendingRow) : PriceStreamState × Option CSVRow :=
  match pairPending pending2 with
  | (pending3, some _) =>
    (updatePending (writeCombinedRow s1 marketType pending2).1 marketType pending3,
      (writeCombinedRow s1 marketType pending2).2)
  | (pending3, none) => (updatePending s1 marketType pending3, none)

/-- Lines 1260-1326: PriceStreamLogger.maybeWriteRow. The now argument
models Date.now() used when the event timestamp fails to parse; the call
sites guarantee the asset id is tracked, so the untracked case (a runtime
crash on the source's non-null assertion) is modelled as a no-op. -/
def maybeWriteRow (now : ℤ) (s : PriceStreamState) (assetId : String) (price : ℚ)
    (bestBid bestAsk : Option ℚ) (timestampStr : Option ℤ) :
    PriceStreamState × Option CSVRow :=
  match s.assetStates assetId with
  | none => (s, none)
  | some state =>
    let roundedPrice := round6 price
    if state.lastPrice.map round6 = some roundedPrice then (s, none)
    else
      let s1 := updateAssetState s assetId { state with lastPrice := some roundedPrice }
      let tsMs := timestampStr.getD now
      let market := getMarketByAssetId s.discovery assetId
      let outcomeLabel :=
        jsOrStr (match market with
          | some m =>
            match m.tokens.find? (fun t => t.token_id == assetId) with
            | some t => t.outcome
            | none => ""
          | none => "") "Unknown"
      let marketType :=
        jsOrStr (match market with | some m => m.market_type | none => "") "Unknown"
      let pendingPrice : PendingPrice :=
        { price := roundedPrice, bid := bestBid, ask := bestAsk,
          assetId := assetId, ts_ms := tsMs }
      let pending0 := (s1.pendingRows marketType).getD
        { marketType := marketType, up := none, down := none, lastUpdate := tsMs }
      let pending1 := clearStale pending0 tsMs
      let isUp := outcomeLabel.toUpper == "UP"
      let pending2 := setSide pending1 pendingPrice isUp tsMs
      maybeWriteRowPending s1 marketType pending2

/-- C1: with both sides buffered, timestamps within 2000 ms yield exactly
one emitted pair with both buffers cleared; a gap above 2000 ms discards
the older side, keeps the newer one and emits nothing; and clearStale
(applied by maybeWriteRow before pairing) drops a buffered side exactly
when it is more than 5000 ms older than the incoming update. -/
theorem pairPending_spec (p : PendingRow) (u d : PendingPrice) (tsMs : ℤ) :
    (p.up = some u → p.down = some d → |u.ts_ms - d.ts_ms| ≤ 2000 →
      pairPending p = ({ p with up := none, down := none }, some (u, d))) ∧
    (p.up = some u → p.down = some d → 2000 < |u.ts_ms - d.ts_ms| →
      (u.ts_ms < d.ts_ms → pairPending p = ({ p with up := none }, none)) ∧
      (d.ts_ms ≤ u.ts_ms → pairPending p = ({ p with down := none }, none))) ∧
    (p.up = some u → 5000 < tsMs - u.ts_ms → (clearStale p tsMs).up = none) ∧
    (p.up = some u → tsMs - u.ts_ms ≤ 5000 → (clearStale p tsMs).up = some u) ∧
    (p.down = some d → 5000 < tsMs - d.ts_ms → (clearStale p tsMs).down = none) ∧
    (p.down = some d → tsMs - d.ts_ms ≤ 5000 → (clearStale p tsMs).down = some d) := by
  refine ⟨?_, ?_, ?_, ?_, ?_, ?_⟩
  · intro hu hd hle
    rw [← intAbs_eq_abs] at hle
    simp [pairPending, hu, hd, hle]
  · intro hu hd hgt
    rw [← intAbs_eq_abs] at hgt
    have hnle : ¬ intAbs (u.ts_ms - d.ts_ms) ≤ 2000 := not_le.mpr hgt
    constructor
    · intro hlt
      simp [pairPending, hu, hd, hnle, hlt]
    · intro hge
      have : ¬ u.ts_ms < d.ts_ms := not_lt.mpr hge
      simp [pairPending, hu, hd, hnle, this]
  · intro hu hstale
    simp [clearStale, hu, hstale]
  · intro hu hfresh
    simp [clearStale, hu, not_lt.mpr hfresh]
  · intro hd hstale
    simp [clearStale, hd, hstale]
  · intro hd hfresh
    simp [clearStale, hd, not_lt.mpr hfresh]

/-- C1 concrete inputs: the spec scenario, an Up observation at t=0 paired
with a Down at t=1500, and an Up at t=0 against a Down at t=2500. -/
def upAt0 : PendingPrice :=
  { price := 3 / 5, bid := some (59 / 100), ask := some (61 / 100),
    assetId := "U", ts_ms := 0 }

def downAt1500 : PendingPrice :=
  { price := 2 / 5, bid := some (39 / 100), ask := some (41 / 100),
    assetId := "D", ts_ms := 1500 }

def downAt2500 : PendingPrice := { downAt1500 with ts_ms := 2500 }

def pendingNear : PendingRow :=
  { marketType := "btc-updown-15m", up := some upAt0, down := some downAt1500,
    lastUpdate := 1500 }

def pendingFar : PendingRow :=
  { marketType := "btc-updown-15m", up := some upAt0, down := some downAt2500,
    lastUpdate := 2500 }

/-- C1 witness: the 0/1500 pair emits one combined pair and clears both
buffers; the 0/2500 pair emits nothing and discards only the Up side. -/
theorem pairPending_spec_witness :
    pairPending pendingNear =
      ({ pendingNear with up := none, down := none }, some (upAt0, downAt1500)) ∧
      pairPending pendingFar = ({ pendingFar with up := none }, none) :=
  ⟨(pairPending_spec pendingNear upAt0 downAt1500 0).1 rfl rfl
      (by rw [← intAbs_eq_abs]; decide),
    ((pairPending_spec pendingFar upAt0 downAt2500 0).2.1 rfl rfl
      (by rw [← intAbs_eq_abs]; decide)).1 (by decide)⟩

/-!
## Forwarding deduplication at six decimals — C3
-/

theorem round6_idem (q : ℚ) : round6 (round6 q) = round6 q := by
  unfold round6 jsRound
  have h1 : (⌊q * 1000000 + 1 / 2⌋ : ℚ) / 1000000 * 1000000 =
      ((⌊q * 1000000 + 1 / 2⌋ : ℤ) : ℚ) := by
    field_simp
  rw [h1]
  have h2 : (((⌊q * 1000000 + 1 / 2⌋ : ℤ) : ℚ) + 1 / 2) =
      ((1 : ℚ) / 2 + (⌊q * 1000000 + 1 / 2⌋ : ℤ)) := by ring
  rw [h2, Int.floor_add_int]
  norm_num

theorem writeCombinedRow_assetStates (s : PriceStreamState) (mt : String)
    (pending : PendingRow) : (writeCombinedRow s mt pending).1.assetStates = s.assetStates := by
  unfold writeCombinedRow
  cases h : s.writers mt with
  | none => rfl
  | some w => simp [updateWriter]

theorem maybeWriteRowPending_assetStates (s : PriceStreamState) (mt : String)
    (pending : PendingRow) :
    (maybeWriteRowPending s mt pending).1.assetStates = s.assetStates := by
  unfold maybeWriteRowPending
  rcases hp : pairPending pending with ⟨p3, e⟩
  cases e with
  | none => simp [updatePending]
  | some pr => simp [updatePending, writeCombinedRow_assetStates]

/-- C3: a derived price whose six-decimal rounding equals the previously
forwarded one is dropped before reaching the row assembler (the whole
state is unchanged and nothing is emitted); a differing price is forwarded
and recorded, so a second consecutive update with the same six-decimal
rounding is a no-op — exactly one forwarded change. -/
theorem maybeWriteRow_round6_dedup (now now2 : ℤ) (s : PriceStreamState)
    (assetId : String) (price price2 : ℚ) (bb ba bb2 ba2 : Option ℚ)
    (ts ts2 : Option ℤ) (st : AssetState)
    (hst : s.assetStates assetId = some st) :
    (st.lastPrice.map round6 = some (round6 price) →
      maybeWriteRow now s assetId price bb ba ts = (s, none)) ∧
    (st.lastPrice.map round6 ≠ some (round6 price) →
      (maybeWriteRow now s assetId price bb ba ts).1.assetStates assetId =
        some { st with lastPrice := some (round6 price) } ∧
      (round6 price2 = round6 price →
        maybeWriteRow now2 (maybeWriteRow now s assetId price bb ba ts).1 assetId
            price2 bb2 ba2 ts2 =
          ((maybeWriteRow now s assetId price bb ba ts).1, none))) := by
  constructor
  · intro heq
    simp [maybeWriteRow, hst, heq]
  · intro hne
    have hstates : (maybeWriteRow now s assetId price bb ba ts).1.assetStates assetId =
        some { st with lastPrice := some (round6 price) } := by
      simp only [maybeWriteRow, hst]
      rw [if_neg hne]
      rw [maybeWriteRowPending_assetStates]
      simp [updateAssetState]
    refine ⟨hstates, ?_⟩
    intro hsame
    have hkey : ({ st with lastPrice := some (round6 price) } : AssetState).lastPrice.map round6 =
        some (round6 price2) := by
      simp [round6_idem, hsame]
    generalize hg : (maybeWriteRow now s assetId price bb ba ts).1 = s1 at hstates ⊢
    simp [maybeWriteRow, hstates, hkey]

/-- C3 concrete state: one tracked asset with no previously forwarded
price. -/
def sC3 : PriceStreamState := { emptyStream with assetStates := fun _ => some freshAssetState }

/-- C3 witness: a first update at price 1/3 is forwarded and recorded;
repeating the same price is a no-op. -/
theorem maybeWriteRow_round6_dedup_witness :
    (maybeWriteRow 0 sC3 "A" (1 / 3) none none (some 100)).1.assetStates "A" =
      some { freshAssetState with lastPrice := some (round6 (1 / 3)) } ∧
      maybeWriteRow 0 (maybeWriteRow 0 sC3 "A" (1 / 3) none none (some 100)).1 "A"
          (1 / 3) none none (some 200) =
        ((maybeWriteRow 0 sC3 "A" (1 / 3) none none (some 100)).1, none) := by
  have h := (maybeWriteRow_round6_dedup 0 0 sC3 "A" (1 / 3) (1 / 3) none none none none
    (some 100) (some 200) freshAssetState rfl).2 (by simp [freshAssetState])
  exact ⟨h.1, h.2 rfl⟩

/-!
## Event processor — lines 834-1258

Numeric string fields of inbound events are modelled as parse results
(Option values of safeParseNumber); for price_change items the outer
Option models field presence (undefined) and the inner one the parse.
-/

structure OrderBookLevel where
  price : Option ℚ
  size : Option ℚ
deriving DecidableEq, Repr

structure PriceChangeItem where
  asset_id : String
  best_bid : Option (Option ℚ)
  best_ask : Option (Option ℚ)
deriving DecidableEq, Repr

inductive MarketEvent where
  | book (asset_id market : String) (bids asks : List OrderBookLevel) (timestamp : Option ℤ)
  | price_change (market : String) (price_changes : List PriceChangeItem)
      (timestamp : Option ℤ)
  | last_trade_price (asset_id market : String) (price : Option ℚ) (timestamp : Option ℤ)
  | best_bid_ask (asset_id market : String) (best_bid best_ask : Option ℚ)
      (timestamp : Option ℤ)
  | unknownEvent (event_type : String)
deriving DecidableEq, Repr

/-- Lines 840-845: mid price from best bid/ask when both present and
strictly positive. -/
def computeMidPrice (bestBid bestAsk : Option ℚ) : Option ℚ :=
  match bestBid, bestAsk with
  | some b, some a => if 0 < b ∧ 0 < a then some ((b + a) / 2) else none
  | _, _ => none

/-- Lines 857-861 comparator winner: first element with the extremal
price (JavaScript sort is stable, so index 0 holds the first maximal bid
or first minimal ask). -/
def pickBest (isBid : Bool) : List OrderBookLevel → Option OrderBookLevel
  | [] => none
  | l :: ls =>
    some (ls.foldl (fun best cur =>
      if isBid then (if jsOrZero best.price < jsOrZero cur.price then cur else best)
      else (if jsOrZero cur.price < jsOrZero best.price then cur else best)) l)

/-- Lines 847-864: best price from one side of an order book. -/
def getBestFromBook (levels : List OrderBookLevel) (isBid : Bool) : Option ℚ :=
  let validLevels := levels.filter (fun l =>
    match l.size with
    | some sz => decide (0 < sz)
    | none => false)
  match pickBest isBid validLevels with
  | some l => l.price
  | none => none

/-- Lines 1183-1201: handleBookEvent. -/
def handleBookEvent (now : ℤ) (s : PriceStreamState) (asset_id market : String)
    (bids asks : List OrderBookLevel) (timestamp : Option ℤ) :
    PriceStreamState × Option CSVRow :=
  match s.assetStates asset_id with
  | none => (s, none)
  | some state =>
    let bestBid := getBestFromBook bids true
    let bestAsk := getBestFromBook asks false
    let state2 := { state with bestBid := bestBid, bestAsk := bestAsk,
                               marketConditionId := some market }
    let s1 := updateAssetState s asset_id state2
    let price := match computeMidPrice bestBid bestAsk with
      | some m => some m
      | none => state2.lastTradePrice
    match price with
    | some p => maybeWriteRow now s1 asset_id p bestBid bestAsk timestamp
    | none => (s1, none)

/-- Lines 1225-1241: handleLastTradePriceEvent. -/
def handleLastTradePriceEvent (now : ℤ) (s : PriceStreamState) (asset_id market : String)
    (price : Option ℚ) (timestamp : Option ℤ) : PriceStreamState × Option CSVRow :=
  match s.assetStates asset_id with
  | none => (s, none)
  | some state =>
    match price with
    | none => (s, none)
    | some tradePrice =>
      let state2 := { state with lastTradePrice := some tradePrice,
                                 marketConditionId := some market }
      let s1 := updateAssetState s asset_id state2
      let p := match computeMidPrice state2.bestBid state2.bestAsk with
        | some m => m
        | none => tradePrice
      maybeWriteRow now s1 asset_id p state2.bestBid state2.bestAsk timestamp

/-- Lines 1243-1258: handleBestBidAskEvent. -/
def handleBestBidAskEvent (now : ℤ) (s : PriceStreamState) (asset_id market : String)
    (best_bid best_ask : Option ℚ) (timestamp : Option ℤ) :
    PriceStreamState × Option CSVRow :=
  match s.assetStates asset_id with
  | none => (s, none)
  | some state =>
    let state2 := { state with bestBid := best_bid, bestAsk := best_ask,
                               marketConditionId := some market }
    let s1 := updateAssetState s asset_id state2
    let price := match computeMidPrice best_bid best_ask with
      | some m => some m
      | none => state2.lastTradePrice
    match price with
    | some p => maybeWriteRow now s1 asset_id p best_bid best_ask timestamp
    | none => (s1, none)

/-- Lines 1206-1222: the body of the loop over price_changes; an item
whose asset id is untracked is skipped with continue. -/
def handlePriceChangeItem (now : ℤ) (market : String) (timestamp : Option ℤ)
    (acc : PriceStreamState × List CSVRow) (change : PriceChangeItem) :
    PriceStreamState × List CSVRow :=
  match acc.1.assetStates change.asset_id with
  | none => acc
  | some state =>
    let state2 := { state with marketConditionId := some market }
    let state3 := match change.best_bid with
      | some v => { state2 with bestBid := v }
      | none => state2
    let state4 := match change.best_ask with
      | some v => { state3 with bestAsk := v }
      | none => state3
    let s1 := updateAssetState acc.1 change.asset_id state4
    let price := match computeMidPrice state4.bestBid state4.bestAsk with
      | some m => some m
      | none => state4.lastTradePrice
    match price with
    | some p =>
      ((maybeWriteRow now s1 change.asset_id p state4.bestBid state4.bestAsk timestamp).1,
        acc.2 ++
          (maybeWriteRow now s1 change.asset_id p state4.bestBid state4.bestAsk
            timestamp).2.toList)
    | none => (s1, acc.2)

/-- Lines 1203-1223: handlePriceChangeEvent. -/
def handlePriceChangeEvent (now : ℤ) (s : PriceStreamState) (market : String)
    (price_changes : List PriceChangeItem) (timestamp : Option ℤ) :
    PriceStreamState × List CSVRow :=
  price_changes.foldl (handlePriceChangeItem now market timestamp) (s, [])

/-- Lines 1164-1181: processEvent dispatches on event_type; any other
event type falls through the switch as a no-op. -/
def processEvent (now : ℤ) (s : PriceStreamState) (e : MarketEvent) :
    PriceStreamState × List CSVRow :=
  match e with
  | .book aid market bids asks ts =>
    ((handleBookEvent now s aid market bids asks ts).1,
      (handleBookEvent now s aid market bids asks ts).2.toList)
  | .price_change market pcs ts => handlePriceChangeEvent now s market pcs ts
  | .last_trade_price aid market price ts =>
    ((handleLastTradePriceEvent now s aid market price ts).1,
      (handleLastTradePriceEvent now s aid market price ts).2.toList)
  | .best_bid_ask aid market bb ba ts =>
    ((handleBestBidAskEvent now s aid market bb ba ts).1,
      (handleBestBidAskEvent now s aid market bb ba ts).2.toList)
  | .unknownEvent _ => (s, [])

theorem handlePriceChange_fold_noop (now : ℤ) (market : String) (ts : Option ℤ)
    (pcs : List PriceChangeItem) (s : PriceStreamState) (rows : List CSVRow)
    (h : ∀ c ∈ pcs, s.assetStates c.asset_id = none) :
    pcs.foldl (handlePriceChangeItem now market ts) (s, rows) = (s, rows) := by
  induction pcs generalizing rows with
  | nil => rfl
  | cons c cs ih =>
    have hc : s.assetStates c.asset_id = none := h c (by simp)
    have hstep : handlePriceChangeItem now market ts (s, rows) c = (s, rows) := by
      simp [handlePriceChangeItem, hc]
    rw [List.foldl_cons, hstep]
    exact ih rows fun x hx => h x (List.mem_cons_of_mem c hx)

/-- C9: an inbound event with an unknown event type, or one whose asset
id (for price_change: all of whose asset ids) is not in the tracked
asset-state map, is a strict no-op: the state is unchanged and no row is
emitted, so a removed asset is never resurrected. -/
theorem processEvent_untracked_noop (now : ℤ) (s : PriceStreamState) :
    (∀ et, processEvent now s (.unknownEvent et) = (s, [])) ∧
    (∀ aid market bids asks ts, s.assetStates aid = none →
      processEvent now s (.book aid market bids asks ts) = (s, [])) ∧
    (∀ aid market price ts, s.assetStates aid = none →
      processEvent now s (.last_trade_price aid market price ts) = (s, [])) ∧
    (∀ aid market bb ba ts, s.assetStates aid = none →
      processEvent now s (.best_bid_ask aid market bb ba ts) = (s, [])) ∧
    (∀ market pcs ts, (∀ c ∈ pcs, s.assetStates c.asset_id = none) →
      processEvent now s (.price_change market pcs ts) = (s, [])) := by
  refine ⟨fun et => rfl, ?_, ?_, ?_, ?_⟩
  · intro aid market bids asks ts h
    simp [processEvent, handleBookEvent, h]
  · intro aid market price ts h
    simp [processEvent, handleLastTradePriceEvent, h]
  · intro aid market bb ba ts h
    simp [processEvent, handleBestBidAskEvent, h]
  · intro market pcs ts h
    simpa [processEvent, handlePriceChangeEvent] using
      handlePriceChange_fold_noop now market ts pcs s [] h

/-- C9 witness: on a state with no tracked assets, an unknown event, each
known event kind for an untracked id, and a price_change referencing an
untracked id are all no-ops. -/
theorem processEvent_untracked_noop_witness :
    processEvent 0 emptyStream (.unknownEvent "mystery") = (emptyStream, []) ∧
      processEvent 0 emptyStream (.book "gone" "m" [] [] (some 5)) = (emptyStream, []) ∧
      processEvent 0 emptyStream
        (.last_trade_price "gone" "m" (some (1 / 2)) (some 5)) = (emptyStream, []) ∧
      processEvent 0 emptyStream
        (.best_bid_ask "gone" "m" (some (1 / 2)) (some (3 / 5)) (some 5)) =
        (emptyStream, []) ∧
      processEvent 0 emptyStream
        (.price_change "m" [{ asset_id := "gone", best_bid := none, best_ask := none }]
          (some 5)) = (emptyStream, []) :=
  ⟨(processEvent_untracked_noop 0 emptyStream).1 "mystery",
    (processEvent_untracked_noop 0 emptyStream).2.1 "gone" "m" [] [] (some 5) rfl,
    (processEvent_untracked_noop 0 emptyStream).2.2.1 "gone" "m" (some (1 / 2))
      (some 5) rfl,
    (processEvent_untracked_noop 0 emptyStream).2.2.2.1 "gone" "m" (some (1 / 2))
      (some (3 / 5)) (some 5) rfl,
    (processEvent_untracked_noop 0 emptyStream).2.2.2.2 "m"
      [{ asset_id := "gone", best_bid := none, best_ask := none }] (some 5)
      (by intro c hc; simp [emptyStream])⟩

/-!
## Market discovery selection — findCurrentMarketsForAllTypes, lines 274-332

String.includes and the regex match on updown-15m slugs are implemented
over character lists.
-/

def listStartsWith : List Char → List Char → Bool
  | [], _ => true
  | _ :: _, [] => false
  | p :: ps, c :: cs => p == c && listStartsWith ps cs

def listContainsSub (pat : List Char) : List Char → Bool
  | [] => pat.isEmpty
  | c :: cs => listStartsWith pat (c :: cs) || listContainsSub pat cs

/-- JavaScript String.includes. -/
def strIncludes (s pat : String) : Bool := listContainsSub pat.toList s.toList

/-- Leading digit run of a character list together with its decimal value. -/
def takeDigits : List Char → List Char
  | [] => []
  | c :: cs => if c.isDigit then c :: takeDigits cs else []

def digitsToNat (ds : List Char) : ℕ := ds.foldl (fun acc c => acc * 10 + (c.toNat - 48)) 0

/-- Line 288: slug.match with the pattern updown-15m- followed by digits;
returns the first capture parsed as a number. -/
def slugMatch15m : List Char → Option ℕ
  | [] => none
  | c :: cs =>
    if listStartsWith "updown-15m-".toList (c :: cs) then
      let ds := takeDigits ((c :: cs).drop 11)
      if ds.isEmpty then slugMatch15m cs else some (digitsToNat ds)
    else slugMatch15m cs

/-- Lines 301-320: the body of the selection loop once the 15-minute slug
validation has fallen through. The accumulator is the (current, next)
pair. -/
def selectStepNormal (now : ℤ) (acc : Option MarketInfo × Option MarketInfo)
    (m : MarketInfo) : Option MarketInfo × Option MarketInfo :=
  if now < m.endTimeMs then
    if m.startTimeMs ≤ now + 1000 then
      match acc.1 with
      | none => (some m, acc.2)
      | some c =>
        if c.startTimeMs < m.startTimeMs ∧ m.startTimeMs ≤ now then (some m, acc.2)
        else acc
    else
      match acc.1 with
      | some _ => if acc.2.isNone then (acc.1, some m) else acc
      | none => (some m, acc.2)
  else acc

/-- Lines 281-321: one iteration of the selection loop over the fetched
markets of one type; windowStartSec is the current 15-minute grid
boundary in epoch seconds. -/
def selectStep (marketType : String) (now windowStartSec : ℤ)
    (acc : Option MarketInfo × Option MarketInfo) (m : MarketInfo) :
    Option MarketInfo × Option MarketInfo :=
  if strIncludes marketType "updown-15m" then
    match slugMatch15m m.slug.toList with
    | some w =>
      if (w : ℤ) ≠ windowStartSec then
        (if windowStartSec < (w : ℤ) ∧ acc.2.isNone then (acc.1, some m)
         else acc)
      else selectStepNormal now acc m
    | none => selectStepNormal now acc m
  else selectStepNormal now acc m

/-- Lines 276-321: the whole per-type selection pass over the fetched
markets in fetch order. -/
def selectCurrentNext (marketType : String) (now windowStartSec : ℤ)
    (markets : List MarketInfo) : Option MarketInfo × Option MarketInfo :=
  markets.foldl (selectStep marketType now windowStartSec) (none, none)

/-- Candidate that the selection loop actually considers for the current
slot: it must survive the 15-minute slug-grid validation and have
endTime > now. -/
def isLiveCandidate (marketType : String) (now windowStartSec : ℤ) (m : MarketInfo) : Bool :=
  (if strIncludes marketType "updown-15m" then
    match slugMatch15m m.slug.toList with
    | some w => decide ((w : ℤ) = windowStartSec)
    | none => true
  else true) && decide (now < m.endTimeMs)

/-- Following the words of the amended claim: keep the candidate with the
latest start time, the earliest fetched winning ties. -/
def maxStartStep (acc : Option MarketInfo) (m : MarketInfo) : Option MarketInfo :=
  match acc with
  | none => some m
  | some c => if c.startTimeMs < m.startTimeMs then some m else acc

/-- Following the words of the amended claim: the candidate with the
latest start time, the earliest fetched winning ties. -/
def maxByStartFirst (markets : List MarketInfo) : Option MarketInfo :=
  markets.foldl maxStartStep none

/-- What the selection loop does to the current slot alone. -/
def currentStep (marketType : String) (now windowStartSec : ℤ)
    (cur : Option MarketInfo) (m : MarketInfo) : Option MarketInfo :=
  if isLiveCandidate marketType now windowStartSec m then maxStartStep cur m else cur

theorem selectStepNormal_fst (now : ℤ) (cur nxt : Option MarketInfo) (m : MarketInfo)
    (h : now < m.endTimeMs → m.startTimeMs ≤ now) :
    (selectStepNormal now (cur, nxt) m).1 =
      if now < m.endTimeMs then maxStartStep cur m else cur := by
  unfold selectStepNormal maxStartStep
  by_cases hend : now < m.endTimeMs
  · have hst := h hend
    have hb : m.startTimeMs ≤ now + 1000 := by linarith
    cases cur with
    | none => simp [hend, hb]
    | some c =>
      simp only [hend, hb, hst, if_true, if_pos, and_true]
      split_ifs <;> rfl
  · simp [hend]

theorem selectStep_fst (mt : String) (now wss : ℤ) (cur nxt : Option MarketInfo)
    (m : MarketInfo)
    (hsm : isLiveCandidate mt now wss m = true → m.startTimeMs ≤ now) :
    (selectStep mt now wss (cur, nxt) m).1 = currentStep mt now wss cur m := by
  by_cases h15 : strIncludes mt "updown-15m" = true
  · cases hslug : slugMatch15m m.slug.data with
    | none =>
      have hlive : isLiveCandidate mt now wss m = decide (now < m.endTimeMs) := by
        simp [isLiveCandidate, h15, hslug]
      have hno : now < m.endTimeMs → m.startTimeMs ≤ now := fun hend =>
        hsm (by simp [hlive, hend])
      rw [show selectStep mt now wss (cur, nxt) m = selectStepNormal now (cur, nxt) m from
        by simp [selectStep, h15, hslug]]
      rw [selectStepNormal_fst now cur nxt m hno]
      unfold currentStep
      rw [hlive]
      by_cases hend : now < m.endTimeMs <;> simp [hend]
    | some w =>
      by_cases hw : (w : ℤ) = wss
      · have hlive : isLiveCandidate mt now wss m = decide (now < m.endTimeMs) := by
          simp [isLiveCandidate, h15, hslug, hw]
        have hno : now < m.endTimeMs → m.startTimeMs ≤ now := fun hend =>
          hsm (by simp [hlive, hend])
        rw [show selectStep mt now wss (cur, nxt) m = selectStepNormal now (cur, nxt) m from
          by simp [selectStep, h15, hslug, hw]]
        rw [selectStepNormal_fst now cur nxt m hno]
        unfold currentStep
        rw [hlive]
        by_cases hend : now < m.endTimeMs <;> simp [hend]
      · have hlive : isLiveCandidate mt now wss m = false := by
          simp [isLiveCandidate, h15, hslug, hw]
        have hsel : (selectStep mt now wss (cur, nxt) m).1 = cur := by
          simp only [selectStep, String.toList, h15, hslug, if_true]
          rw [if_pos hw]
          split_ifs <;> rfl
        rw [hsel]
        unfold currentStep
        rw [hlive]
        simp
  · have hlive : isLiveCandidate mt now wss m = decide (now < m.endTimeMs) := by
      simp [isLiveCandidate, h15]
    have hno : now < m.endTimeMs → m.startTimeMs ≤ now := fun hend =>
      hsm (by simp [hlive, hend])
    rw [show selectStep mt now wss (cur, nxt) m = selectStepNormal now (cur, nxt) m from
      by simp [selectStep, h15]]
    rw [selectStepNormal_fst now cur nxt m hno]
    unfold currentStep
    rw [hlive]
    by_cases hend : now < m.endTimeMs <;> simp [hend]

theorem selectFold_fst (mt : String) (now wss : ℤ) (markets : List MarketInfo)
    (h : ∀ m ∈ markets, isLiveCandidate mt now wss m = true → m.startTimeMs ≤ now) :
    ∀ acc : Option MarketInfo × Option MarketInfo,
      (markets.foldl (selectStep mt now wss) acc).1 =
        markets.foldl (currentStep mt now wss) acc.1 := by
  induction markets with
  | nil => intro acc; rfl
  | cons m ms ih =>
    intro acc
    rcases acc with ⟨cur, nxt⟩
    rw [List.foldl_cons, List.foldl_cons]
    have h1 := selectStep_fst mt now wss cur nxt m (h m (by simp))
    calc (List.foldl (selectStep mt now wss) (selectStep mt now wss (cur, nxt) m) ms).1
        = List.foldl (currentStep mt now wss) (selectStep mt now wss (cur, nxt) m).1 ms :=
          ih (fun x hx => h x (List.mem_cons_of_mem m hx)) _
      _ = List.foldl (currentStep mt now wss) (currentStep mt now wss cur m) ms := by rw [h1]

theorem currentFold_filter (mt : String) (now wss : ℤ) (markets : List MarketInfo) :
    ∀ cur : Option MarketInfo,
      markets.foldl (currentStep mt now wss) cur =
        (markets.filter (isLiveCandidate mt now wss)).foldl maxStartStep cur := by
  induction markets with
  | nil => intro cur; rfl
  | cons m ms ih =>
    intro cur
    by_cases hm : isLiveCandidate mt now wss m = true
    · rw [List.foldl_cons, show List.filter (isLiveCandidate mt now wss) (m :: ms) =
          m :: List.filter (isLiveCandidate mt now wss) ms from by simp [List.filter_cons, hm]]
      rw [List.foldl_cons, ih]
      congr 1
      simp [currentStep, hm]
    · rw [List.foldl_cons, show List.filter (isLiveCandidate mt now wss) (m :: ms) =
          List.filter (isLiveCandidate mt now wss) ms from by simp [List.filter_cons, hm]]
      rw [ih]
      congr 1
      simp [currentStep, hm]

theorem selectStep_fst_or (mt : String) (now wss : ℤ) (cur nxt : Option MarketInfo)
    (m : MarketInfo) :
    (selectStep mt now wss (cur, nxt) m).1 = cur ∨
      (selectStep mt now wss (cur, nxt) m).1 = some m := by
  rcases hslug : slugMatch15m m.slug.data with _ | w <;>
    cases cur <;>
      simp only [selectStep, selectStepNormal, String.toList, hslug] <;>
        split_ifs <;> simp

theorem selectFold_fst_isSome (mt : String) (now wss : ℤ) (markets : List MarketInfo) :
    ∀ acc : Option MarketInfo × Option MarketInfo, acc.1.isSome = true →
      ((markets.foldl (selectStep mt now wss) acc).1).isSome = true := by
  induction markets with
  | nil => intro acc h; exact h
  | cons m ms ih =>
    intro acc h
    rw [List.foldl_cons]
    apply ih
    rcases acc with ⟨cur, nxt⟩
    rcases selectStep_fst_or mt now wss cur nxt m with he | he
    · rw [he]; exact h
    · rw [he]; rfl

theorem selectStep_live_isSome (mt : String) (now wss : ℤ) (cur nxt : Option MarketInfo)
    (m : MarketInfo) (hm : isLiveCandidate mt now wss m = true) :
    ((selectStep mt now wss (cur, nxt) m).1).isSome = true := by
  cases cur with
  | some c =>
    rcases selectStep_fst_or mt now wss (some c) nxt m with he | he <;> rw [he] <;> rfl
  | none =>
    by_cases h15 : strIncludes mt "updown-15m" = true
    · cases hslug : slugMatch15m m.slug.data with
      | none =>
        have hend : now < m.endTimeMs := by
          simpa [isLiveCandidate, h15, hslug] using hm
        simp only [selectStep, selectStepNormal, String.toList, h15, hslug, if_true]
        simp only [hend, if_true]
        split_ifs <;> rfl
      | some w =>
        have hws : (w : ℤ) = wss ∧ now < m.endTimeMs := by
          simpa [isLiveCandidate, h15, hslug] using hm
        simp only [selectStep, selectStepNormal, String.toList, h15, hslug, if_true]
        rw [if_neg (not_not_intro hws.1)]
        simp only [hws.2, if_true]
        split_ifs <;> rfl
    · have hend : now < m.endTimeMs := by
        simpa [isLiveCandidate, h15] using hm
      simp only [selectStep, selectStepNormal, h15, if_false]
      simp only [hend, if_true]
      split_ifs <;> first | rfl | contradiction

theorem selectFold_live_isSome (mt : String) (now wss : ℤ) (markets : List MarketInfo) :
    ∀ acc : Option MarketInfo × Option MarketInfo,
      (∃ m ∈ markets, isLiveCandidate mt now wss m = true) →
      ((markets.foldl (selectStep mt now wss) acc).1).isSome = true := by
  induction markets with
  | nil =>
    intro acc h
    rcases h with ⟨x, hx, _⟩
    exact absurd hx (List.not_mem_nil x)
  | cons m ms ih =>
    intro acc h
    rcases acc with ⟨cur, nxt⟩
    rcases h with ⟨x, hx, hlive⟩
    rcases List.mem_cons.mp hx with rfl | hxs
    · rw [List.foldl_cons]
      exact selectFold_fst_isSome mt now wss ms _
        (selectStep_live_isSome mt now wss cur nxt x hlive)
    · rw [List.foldl_cons]
      exact ih _ ⟨x, hxs, hlive⟩

/-- C4 counterexample inputs: two hourly candidates, both ending in the
future; the first has started, the second starts inside the small buffer
(now < start ≤ now + 1000) and has the later start time. -/
def mStarted : MarketInfo :=
  { condition_id := "c1", slug := "bitcoin-up-or-down-early", question := "q1",
    endTimeMs := 1100000, startTimeMs := 995000, tokens := [],
    closed := false, active := true, market_type := "bitcoin-up-or-down" }

def mBuffer : MarketInfo :=
  { condition_id := "c2", slug := "bitcoin-up-or-down-late", question := "q2",
    endTimeMs := 1200000, startTimeMs := 1000500, tokens := [],
    closed := false, active := true, market_type := "bitcoin-up-or-down" }

/-- C4: the claim says the candidate with the latest startTime at most
now + buffer is selected; here mBuffer has the latest such startTime and
endTime > now, yet the loop keeps mStarted (a later candidate only
replaces the current one when its startTime is at most now). -/
theorem selectCurrent_counterexample :
    (selectCurrentNext "bitcoin-up-or-down" 1000000 0 [mStarted, mBuffer]).1 =
      some mStarted ∧
      1000000 < mBuffer.endTimeMs ∧ mBuffer.startTimeMs ≤ 1000000 + 1000 ∧
      mStarted.startTimeMs < mBuffer.startTimeMs ∧ mStarted ≠ mBuffer := by
  refine ⟨?_, by decide, by decide, by decide, by decide⟩
  decide

/-- C4 (amended): among the candidates the loop considers for a type
(passing the 15-minute slug-grid check) with endTime > now, when every
such candidate has already started (startTime ≤ now) the one with the
latest startTime is selected as current (earliest fetched wins ties);
and whenever any considered candidate with endTime > now exists the
current slot is set, so the type is never left unset. -/
theorem selectCurrent_spec (mt : String) (now wss : ℤ) (markets : List MarketInfo) :
    ((∀ m ∈ markets, isLiveCandidate mt now wss m = true → m.startTimeMs ≤ now) →
      (selectCurrentNext mt now wss markets).1 =
        maxByStartFirst (markets.filter (isLiveCandidate mt now wss))) ∧
    ((∃ m ∈ markets, isLiveCandidate mt now wss m = true) →
      ((selectCurrentNext mt now wss markets).1).isSome = true) := by
  constructor
  · intro h
    unfold selectCurrentNext maxByStartFirst
    rw [selectFold_fst mt now wss markets h (none, none)]
    exact currentFold_filter mt now wss markets none
  · exact selectFold_live_isSome mt now wss markets (none, none)

/-- C4 witness: one started hourly candidate is both selected and the
latest-start live candidate, and its existence keeps the slot set. -/
theorem selectCurrent_spec_witness :
    (selectCurrentNext "bitcoin-up-or-down" 1000000 0 [mStarted]).1 =
      maxByStartFirst
        ([mStarted].filter (isLiveCandidate "bitcoin-up-or-down" 1000000 0)) ∧
      ((selectCurrentNext "bitcoin-up-or-down" 1000000 0 [mStarted]).1).isSome = true :=
  ⟨(selectCurrent_spec "bitcoin-up-or-down" 1000000 0 [mStarted]).1
      (by
        intro m hm hl
        rw [List.mem_singleton] at hm
        subst hm
        decide),
    (selectCurrent_spec "bitcoin-up-or-down" 1000000 0 [mStarted]).2
      ⟨mStarted, by simp, by decide⟩⟩

/-!
## Reconnect backoff — scheduleReconnect (lines 1388-1404) and onOpen
(lines 1114-1121)

The defaults RECONNECT_BACKOFF_MS = 1000 and MAX_RECONNECT_BACKOFF_MS =
60000 come from lines 536-537.
-/

def RECONNECT_BACKOFF_MS : ℕ := 1000

def MAX_RECONNECT_BACKOFF_MS : ℕ := 60000

/-- Line 1393: backoff = min(base * 2^attempts, cap), computed from the
attempt counter at scheduling time. -/
def reconnectBackoff (attempts : ℕ) : ℕ :=
  min (RECONNECT_BACKOFF_MS * 2 ^ attempts) MAX_RECONNECT_BACKOFF_MS

/-- Connection-manager state: the reconnectAttempts counter and the
pending reconnect timer delay (cancel-and-replace, so at most one). -/
structure WsState where
  attempts : ℕ
  scheduledDelay : Option ℕ
deriving DecidableEq, Repr

/-- Events acting on the counter: a close/error schedules a reconnect
(lines 1378-1404), the reconnect timer firing increments the counter
before reconnecting (lines 1400-1403), and a successful open resets it to
0 (line 1117). -/
inductive WsEvent where
  | close
  | reconnectFire
  | opened
deriving DecidableEq, Repr

def wsStep (s : WsState) : WsEvent → WsState
  | .close => { s with scheduledDelay := some (reconnectBackoff s.attempts) }
  | .reconnectFire => { attempts := s.attempts + 1, scheduledDelay := none }
  | .opened => { s with attempts := 0 }

def wsRun (s : WsState) (es : List WsEvent) : WsState := es.foldl wsStep s

/-- n consecutive connection failures with no intervening open: each
failure schedules a reconnect whose timer fires before the next attempt
fails; the last failure leaves its timer pending. -/
def failureTrace : ℕ → List WsEvent
  | 0 => []
  | 1 => [WsEvent.close]
  | n + 1 => failureTrace n ++ [WsEvent.reconnectFire, WsEvent.close]

def wsInit : WsState := { attempts := 0, scheduledDelay := none }

/-- C5: the claim says the delay after n consecutive failures is
min(base * 2^n, cap); after one failure from a fresh connection the
scheduled delay is the base 1000 ms, not min(1000 * 2^1, 60000) = 2000. -/
theorem reconnectBackoff_counterexample :
    (wsRun wsInit (failureTrace 1)).scheduledDelay = some 1000 ∧
      (1000 : ℕ) ≠ min (RECONNECT_BACKOFF_MS * 2 ^ 1) MAX_RECONNECT_BACKOFF_MS := by
  constructor
  · rfl
  · decide

theorem wsRun_failureTrace (n : ℕ) :
    wsRun wsInit (failureTrace (n + 1)) =
      { attempts := n, scheduledDelay := some (reconnectBackoff n) } := by
  induction n with
  | zero => rfl
  | succ k ih =>
    show wsRun wsInit (failureTrace (k + 1) ++ [WsEvent.reconnectFire, WsEvent.close]) = _
    unfold wsRun
    rw [List.foldl_append]
    have : List.foldl wsStep wsInit (failureTrace (k + 1)) =
        { attempts := k, scheduledDelay := some (reconnectBackoff k) } := ih
    rw [this]
    rfl

/-- C5 (amended): after n + 1 consecutive failures with no intervening
open, the pending reconnect delay is min(base * 2^n, cap) — the exponent
is the number of previous failures, so the first failure waits the base
delay; and an open resets the counter to 0, making the next failure
schedule the base delay again. -/
theorem reconnectBackoff_spec (n : ℕ) (s : WsState) :
    (wsRun wsInit (failureTrace (n + 1))).scheduledDelay =
      some (min (RECONNECT_BACKOFF_MS * 2 ^ n) MAX_RECONNECT_BACKOFF_MS) ∧
    (wsStep s .opened).attempts = 0 ∧
    (wsRun s [WsEvent.opened, WsEvent.close]).scheduledDelay =
      some RECONNECT_BACKOFF_MS := by
  refine ⟨?_, rfl, rfl⟩
  rw [wsRun_failureTrace n]
  rfl
